import Mathlib

/-!
Verification of the feature-assembly and sequence-encoding pipeline of the
q-networks digital-asset forecasting repository.

The embedding models pandas DataFrames as ordered column-name lists together
with rows of optional rational cells (`none` is pandas NaN).  Dates and
timestamps are natural numbers: for the daily-keyed primary series and
auxiliary series the key is a day number; the raw mempool series is keyed in
hours since the epoch and `dayOf` maps an hour timestamp to its day, mirroring
`resample("D")`.

Functions embedded from `src/features/feature_engineering.py` and
`src/data/data_controller.py` keep their source names.  Collaborator modules
that the repository imports but whose files are not present
(`src.features.ta`, `src.features.blockchain`, `src.features.extraction.lstm`,
`src.data.data_cleaning`) are either taken as explicit parameters (the
technical-indicator and LSTM collaborators, whose values the verified
properties do not depend on) or modelled from the specification, as marked in
the individual doc comments.
-/

namespace QNet

/-- A pandas DataFrame: ordered column names and ordered rows; each row is a
date key together with one cell per column.  An undefined cell (NaN) is
`none`. -/
structure DataFrame where
  colNames : List String
  rows : List (Nat × List (Option Rat))
  deriving DecidableEq, Repr

/-- Well-formedness: every row carries exactly one cell per column. -/
def wellFormed (df : DataFrame) : Prop :=
  ∀ rw ∈ df.rows, rw.2.length = df.colNames.length

/-- The date index of a frame (`df.index`). -/
def dfIndex (df : DataFrame) : List Nat := df.rows.map Prod.fst

/-- Column selection `df[n]`: the cells of column `n` in row order. -/
def getColumn (df : DataFrame) (n : String) : List (Option Rat) :=
  if n ∈ df.colNames then
    df.rows.map (fun rw => (rw.2.get? (df.colNames.indexOf n)).getD none)
  else []

/-- Column assignment `df[n] = v`: overwrite the column when it exists,
append it otherwise; `v` is aligned positionally and missing positions become
NaN, as for an index-aligned pandas assignment. -/
def setColumn (df : DataFrame) (n : String) (v : List (Option Rat)) : DataFrame :=
  if n ∈ df.colNames then
    ⟨df.colNames,
     df.rows.enum.map (fun ir =>
       (ir.2.1, ir.2.2.set (df.colNames.indexOf n) ((v.get? ir.1).getD none)))⟩
  else
    ⟨df.colNames ++ [n],
     df.rows.enum.map (fun ir => (ir.2.1, ir.2.2 ++ [(v.get? ir.1).getD none]))⟩

/-- An auxiliary time series as fetched by the blockchain collaborators:
a single value column keyed by date (a cell may itself be NaN). -/
abbrev Series := List (Nat × Option Rat)

/-- One step of `pd.merge(data, aux, how="left", left_index=True,
right_index=True)`: every left row is kept in order and receives the matching
auxiliary cell, or NaN when its date is absent from the auxiliary series
(the auxiliary column is named `n`). -/
def merge_left (df : DataFrame) (n : String) (s : Series) : DataFrame :=
  ⟨df.colNames ++ [n],
   df.rows.map (fun rw => (rw.1, rw.2 ++ [(s.lookup rw.1).getD none]))⟩

/-- Sequential left-joins of a list of named auxiliary series onto the same
primary index (the shape of lines 72-89 of `feature_engineering.py`). -/
def mergeAll (df : DataFrame) (auxs : List (String × Series)) : DataFrame :=
  auxs.foldl (fun d ns => merge_left d ns.1 ns.2) df

/-- The column `df["Close"].shift(-1)`: each cell moves up one row and the
final cell becomes NaN. -/
def column_shift_neg1 (c : List (Option Rat)) : List (Option Rat) :=
  (List.range c.length).map (fun i => (c.get? (i + 1)).getD none)

/-- The label column of `data_controller.main` line 37:
`(df["Close"].shift(-1) > df["Close"]).astype(int)`.  A comparison against
NaN is `False` in pandas, and `astype(int)` turns it into `0`, so every row
receives a defined label; in particular the final row receives `0`. -/
def target_column (c : List (Option Rat)) : List Nat :=
  (List.range c.length).map (fun i =>
    match (c.get? i).getD none, ((column_shift_neg1 c).get? i).getD none with
    | some a, some b => if a < b then 1 else 0
    | _, _ => 0)

/-- The label column as the specification words it: `1` if the next row's
close exceeds the current row's close, else `0`, and the final row's label is
undefined (no successor).  Stated only to compare the source's behaviour
against the specification. -/
def target_column_spec (c : List (Option Rat)) : List (Option Nat) :=
  (List.range c.length).map (fun i =>
    match (c.get? i).getD none, ((column_shift_neg1 c).get? i).getD none with
    | some a, some b => some (if a < b then 1 else 0)
    | _, _ => none)

/-- Modelled from the spec: `clean_data` (module `src.data.data_cleaning`,
not under `src/`) drops every row containing any undefined value, keeping the
remaining rows in their original order. -/
def clean_data (df : DataFrame) : DataFrame :=
  ⟨df.colNames, df.rows.filter (fun rw => rw.2.all Option.isSome)⟩

/-- Calendar day of an hour-granularity timestamp. -/
def dayOf (t : Nat) : Nat := t / 24

/-- Arithmetic mean of a list of values, undefined on the empty list. -/
def meanOf (l : List Rat) : Option Rat :=
  match l with
  | [] => none
  | _ => some (l.sum / (l.length : Rat))

/-- First sampled calendar day of a mempool series (0 when empty). -/
def daysMin : List (Nat × Rat) → Nat
  | [] => 0
  | p :: rest => ((p :: rest).map (fun q => dayOf q.1)).foldl Nat.min (dayOf p.1)

/-- Last sampled calendar day of a mempool series (0 when empty). -/
def daysMax : List (Nat × Rat) → Nat
  | [] => 0
  | p :: rest => ((p :: rest).map (fun q => dayOf q.1)).foldl Nat.max (dayOf p.1)

/-- The resampling step `mempool_size_data.resample("D").mean()` of line 84:
one row per calendar day from the first sampled day through the last, whose
value is the mean of that day's samples (NaN for a day with no samples). -/
def resampleDailyMean (s : List (Nat × Rat)) : Series :=
  match s with
  | [] => []
  | p :: rest =>
    (List.range (daysMax (p :: rest) + 1 - daysMin (p :: rest))).map (fun k =>
      (daysMin (p :: rest) + k,
       meanOf ((p :: rest).filterMap
         (fun q => if dayOf q.1 = daysMin (p :: rest) + k then some q.2
                   else none))))

/-- The merge section of `add_blockchain_data` (lines 69-89): the primary
index is already in date form, the four daily auxiliary series are
left-joined in source order, the mempool series is resampled to daily mean
and then joined.  The fetched series are parameters because the
`src.features.blockchain` collaborators are not under `src/`; the column
names are the value columns of the fetched frames. -/
def add_blockchain_merged (df : DataFrame)
    (hashRate avgBlockSize networkDifficulty minersRevenue : Series)
    (mempool : List (Nat × Rat)) : DataFrame :=
  let d1 := merge_left df "hash-rate" hashRate
  let d2 := merge_left d1 "avg-block-size" avgBlockSize
  let d3 := merge_left d2 "difficulty" networkDifficulty
  let d4 := merge_left d3 "miners-revenue" minersRevenue
  let mem := resampleDailyMean mempool
  merge_left d4 "mempool-size" mem

/-- The whole of `add_blockchain_data` (lines 44-94): merge the five
auxiliary series, then clean. -/
def add_blockchain_data (df : DataFrame)
    (hashRate avgBlockSize networkDifficulty minersRevenue : Series)
    (mempool : List (Nat × Rat)) : DataFrame :=
  clean_data (add_blockchain_merged df hashRate avgBlockSize networkDifficulty
    minersRevenue mempool)

/-- The fifteen indicator columns written by `add_all_technical_indicators`,
in source order (lines 106-117). -/
def taNewColNames : List String :=
  ["upper_bb", "middle_bb", "lower_bb", "slowk", "slowd", "macd",
   "macdsignal", "macdhist", "rsi", "sma", "ema", "atr", "macd_hist",
   "obv", "cci"]

/-- The caller-visible state of the frame passed to
`add_all_technical_indicators` after its column assignments (lines 106-117):
each `data[...] = ...` statement writes onto the caller's object.  The ten
`calculate_*` collaborators of `src.features.ta` are not under `src/` and are
taken as parameters; the properties proved below hold for every choice of
them. -/
def add_all_technical_indicators_mutated (df : DataFrame)
    (fBollinger : List (Option Rat) →
      List (Option Rat) × List (Option Rat) × List (Option Rat))
    (fStochastic : DataFrame → List (Option Rat) × List (Option Rat))
    (fMacd : List (Option Rat) →
      List (Option Rat) × List (Option Rat) × List (Option Rat))
    (fRsi fSma fEma fMacdHistogram : List (Option Rat) → List (Option Rat))
    (fAtr fObv fCci : DataFrame → List (Option Rat)) : DataFrame :=
  let b := fBollinger (getColumn df "Close")
  let d1 := setColumn (setColumn (setColumn df "upper_bb" b.1)
    "middle_bb" b.2.1) "lower_bb" b.2.2
  let s := fStochastic d1
  let d2 := setColumn (setColumn d1 "slowk" s.1) "slowd" s.2
  let m := fMacd (getColumn d2 "Close")
  let d3 := setColumn (setColumn (setColumn d2 "macd" m.1)
    "macdsignal" m.2.1) "macdhist" m.2.2
  let d4 := setColumn d3 "rsi" (fRsi (getColumn d3 "Close"))
  let d5 := setColumn d4 "sma" (fSma (getColumn d4 "Close"))
  let d6 := setColumn d5 "ema" (fEma (getColumn d5 "Close"))
  let d7 := setColumn d6 "atr" (fAtr d6)
  let d8 := setColumn d7 "macd_hist" (fMacdHistogram (getColumn d7 "Close"))
  let d9 := setColumn d8 "obv" (fObv d8)
  setColumn d9 "cci" (fCci d9)

/-- The value returned by `add_all_technical_indicators` (lines 97-122): the
mutated frame, recleaned. -/
def add_all_technical_indicators (df : DataFrame)
    (fBollinger : List (Option Rat) →
      List (Option Rat) × List (Option Rat) × List (Option Rat))
    (fStochastic : DataFrame → List (Option Rat) × List (Option Rat))
    (fMacd : List (Option Rat) →
      List (Option Rat) × List (Option Rat) × List (Option Rat))
    (fRsi fSma fEma fMacdHistogram : List (Option Rat) → List (Option Rat))
    (fAtr fObv fCci : DataFrame → List (Option Rat)) : DataFrame :=
  clean_data (add_all_technical_indicators_mutated df fBollinger fStochastic
    fMacd fRsi fSma fEma fMacdHistogram fAtr fObv fCci)

/-- A sequence window: `L` consecutive rows of cell lists. -/
abbrev Window := List (List (Option Rat))

/-- The windows over a frame: window `i` covers rows `[i, i+L)`. -/
def windowsOf (df : DataFrame) (L : Nat) : List Window :=
  (List.range (df.rows.length - L)).map
    (fun i => ((df.rows.drop i).take L).map Prod.snd)

/-- Modelled from the spec: `create_sequences` (module
`src.features.extraction.lstm`, not under `src/`) produces the `N - L`
chronological windows, window `i` covering rows `[i, i+L)`, and rejects a
window length that is not smaller than the row count with a configuration
error. -/
def create_sequences (df : DataFrame) (L : Nat) : Except String (List Window) :=
  if L < df.rows.length then Except.ok (windowsOf df L)
  else Except.error "sequence length must be smaller than the number of rows"

/-- The slice `df.index[sequence_length - 1 : -1]` of line 153. -/
def featureIndexSlice (df : DataFrame) (L : Nat) : List Nat :=
  ((dfIndex df).drop (L - 1)).dropLast

/-- The body of `extract_lstm_features` (lines 125-158).  The LSTM
collaborators (`build_lstm_model`, `train_model`) of
`src.features.extraction.lstm` are not under `src/`; the initial model, the
training function and the composite of `model.predict` with the per-window
mean of line 147 are parameters over an arbitrary model type `μ`.  On the
success path the per-window scalars are zipped with the index slice
`df.index[L-1:-1]`; assigning an index of a different length raises, modelled
by the error branch.  The concatenation of line 156 aligns the new column by
index label. -/
def extract_lstm_features {μ : Type} (df : DataFrame) (L : Nat) (model0 : μ)
    (train : μ → List Window → μ)
    (predictMean : μ → List Window → List Rat) : Except String DataFrame :=
  match create_sequences df L with
  | Except.error e => Except.error e
  | Except.ok X =>
    let model := train model0 X
    let featuresMean := predictMean model X
    let newIdx := featureIndexSlice df L
    if featuresMean.length = newIdx.length then
      Except.ok
        ⟨df.colNames ++ ["lstm_feature"],
         df.rows.map (fun rw =>
           (rw.1, rw.2 ++ [(newIdx.zip featuresMean).lookup rw.1]))⟩
    else Except.error "Length mismatch between values and index"

/-- The names defined by module `src.features.feature_engineering`. -/
def feature_engineering_defined_names : List String :=
  ["add_blockchain_data", "add_all_technical_indicators",
   "extract_lstm_features"]

/-- The names `data_controller.py` imports from the feature-engineering
module (lines 15-19), in source order. -/
def data_controller_feature_imports : List String :=
  ["add_all_technical_indicators", "add_blockchain_data", "extract_features"]

/-- Name resolution of a from-import list against a module's defined names:
the first missing name raises an import error, as Python does while loading
the importing module. -/
def resolveNames (defined requested : List String) : Except String Unit :=
  match requested with
  | [] => Except.ok ()
  | n :: rest =>
    if n ∈ defined then resolveNames defined rest
    else Except.error ("cannot import name " ++ n)

/-- The pipeline entry point `main` of `data_controller.py` (lines 22-60).
Loading the module resolves the feature-engineering imports first; the body
then attaches the label column, augments, merges, cleans, and would call
`extract_features`, a name the feature-engineering module does not define, so
that final call can never resolve.  The fetched frames and collaborator
functions are parameters (their modules are out of scope or absent); the
train/test split is routine glue the result does not depend on. -/
def main_run (fetched : DataFrame)
    (fBollinger : List (Option Rat) →
      List (Option Rat) × List (Option Rat) × List (Option Rat))
    (fStochastic : DataFrame → List (Option Rat) × List (Option Rat))
    (fMacd : List (Option Rat) →
      List (Option Rat) × List (Option Rat) × List (Option Rat))
    (fRsi fSma fEma fMacdHistogram : List (Option Rat) → List (Option Rat))
    (fAtr fObv fCci : DataFrame → List (Option Rat))
    (hashRate avgBlockSize networkDifficulty minersRevenue : Series)
    (mempool : List (Nat × Rat)) : Except String DataFrame := do
  resolveNames feature_engineering_defined_names data_controller_feature_imports
  let df1 := setColumn fetched "target"
    ((target_column (getColumn fetched "Close")).map (fun v => some (v : Rat)))
  let df2 := add_all_technical_indicators df1 fBollinger fStochastic fMacd
    fRsi fSma fEma fMacdHistogram fAtr fObv fCci
  let df3 := add_blockchain_data df2 hashRate avgBlockSize networkDifficulty
    minersRevenue mempool
  let _df4 := clean_data df3
  Except.error "name extract_features is not defined"

/-- A one-hundred-row primary frame with no value columns, used as a concrete
instance. -/
def dfHundred : DataFrame := ⟨[], (List.range 100).map (fun i => (i, []))⟩

/-- An auxiliary series covering only the first three primary dates. -/
def hashThree : Series := [(0, some 1), (1, some 1), (2, some 1)]

/-- A one-row primary frame with a single Close column, used as a concrete
instance. -/
def dfClose : DataFrame := ⟨["Close"], [(0, [some 1])]⟩

/-- A one-row primary frame with no value columns, used as a concrete
instance. -/
def dfEmptyRow : DataFrame := ⟨[], [(0, [])]⟩

/-- A concrete sub-daily mempool series: hourly timestamps spanning three
calendar days (days 0, 0, 1 and 2). -/
def mempoolSamples : List (Nat × Rat) := [(0, 1), (1, 2), (30, 3), (60, 4)]

/-- A three-row primary frame with no value columns, used as a concrete
instance. -/
def dfThree : DataFrame := ⟨[], [(0, []), (1, []), (2, [])]⟩

/-! ## Helper lemmas -/

theorem shift_get?_eq (c : List (Option Rat)) (i : Nat) (h : i < c.length) :
    (column_shift_neg1 c).get? i = some ((c.get? (i + 1)).getD none) := by
  unfold column_shift_neg1
  rw [List.get?_map, List.get?_range h]
  rfl

theorem target_column_get?_eq (c : List (Option Rat)) (i : Nat)
    (h : i < c.length) :
    (target_column c).get? i =
      some (match (c.get? i).getD none, (c.get? (i + 1)).getD none with
            | some a, some b => if a < b then 1 else 0
            | _, _ => 0) := by
  unfold target_column
  rw [List.get?_map, List.get?_range h]
  simp only [Option.map_some']
  rw [shift_get?_eq c i h]
  rfl

theorem lookup_eq_none_iff {β : Type} (s : List (Nat × β)) (t : Nat) :
    s.lookup t = none ↔ t ∉ s.map Prod.fst := by
  induction s with
  | nil => simp
  | cons p rest ih =>
    obtain ⟨k, v⟩ := p
    by_cases hk : t = k
    · subst hk
      simp [List.lookup_cons]
    · have hbe : (t == k) = false := beq_eq_false_iff_ne.mpr hk
      simp [List.lookup_cons, hbe, ih, hk]

theorem lookup_mem_of_eq_some {β : Type} (s : List (Nat × β)) :
    ∀ (t : Nat) (v : β), s.lookup t = some v → (t, v) ∈ s := by
  induction s with
  | nil => intro t v h; simp at h
  | cons p rest ih =>
    intro t v h
    obtain ⟨k, w⟩ := p
    rw [List.lookup_cons] at h
    split at h
    · next hbe =>
      obtain rfl : t = k := eq_of_beq hbe
      obtain rfl : w = v := Option.some.injEq .. ▸ h
      exact List.mem_cons_self _ _
    · next hbe =>
      exact List.mem_cons_of_mem _ (ih t v h)

theorem lookup_zip_eq_get? :
    ∀ (ks : List Nat) (vs : List Rat), ks.Nodup → vs.length = ks.length →
    ∀ (j t : Nat), ks.get? j = some t → (ks.zip vs).lookup t = vs.get? j := by
  intro ks
  induction ks with
  | nil => intro vs _ _ j t h; simp at h
  | cons k ks ih =>
    intro vs hnd hlen j t h
    cases vs with
    | nil => simp at hlen
    | cons v vs =>
      rw [List.nodup_cons] at hnd
      cases j with
      | zero =>
        obtain rfl : k = t := by simpa using h
        simp [List.lookup_cons]
      | succ j =>
        have hj : ks.get? j = some t := by simpa using h
        have ht : t ∈ ks := List.get?_mem hj
        have hne : (t == k) = false :=
          beq_eq_false_iff_ne.mpr fun he => hnd.1 (he ▸ ht)
        have := ih vs hnd.2 (by simpa using hlen) j t hj
        simpa [List.lookup_cons, hne] using this

theorem lookup_zip_eq_none (ks : List Nat) (vs : List Rat)
    (hlen : vs.length = ks.length) (t : Nat) (ht : t ∉ ks) :
    (ks.zip vs).lookup t = none := by
  rw [lookup_eq_none_iff]
  rw [List.map_fst_zip ks vs (by omega)]
  exact ht

theorem countP_not_eq_sub {α : Type} (l : List α) (p : α → Bool) :
    l.countP (fun x => !p x) = l.length - l.countP p := by
  induction l with
  | nil => simp
  | cons x xs ih =>
    have hle : xs.countP p ≤ xs.length := List.countP_le_length p
    by_cases hx : p x = true
    · simp [List.countP_cons, hx, ih]
    · have hx2 : p x = false := by simpa using hx
      simp [List.countP_cons, hx2, ih]
      omega

theorem get?_append_at {α : Type} (cells l2 : List α) (m k : Nat)
    (hm : m = cells.length + k) : (cells ++ l2).get? m = l2.get? k := by
  subst hm
  rw [List.get?_append_right (by omega)]
  congr 1
  omega

theorem add_blockchain_merged_eq (df : DataFrame) (h a n r : Series)
    (s : List (Nat × Rat)) :
    add_blockchain_merged df h a n r s =
      ⟨df.colNames ++ ["hash-rate", "avg-block-size", "difficulty",
         "miners-revenue", "mempool-size"],
       df.rows.map (fun rw => (rw.1, rw.2 ++
         [(h.lookup rw.1).getD none, (a.lookup rw.1).getD none,
          (n.lookup rw.1).getD none, (r.lookup rw.1).getD none,
          ((resampleDailyMean s).lookup rw.1).getD none]))⟩ := by
  unfold add_blockchain_merged merge_left
  simp only [DataFrame.mk.injEq]
  constructor
  · simp [List.append_assoc]
  · simp only [List.map_map]
    apply List.map_congr_left
    intro rw _
    simp [Function.comp, List.append_assoc]

/-! ## Claims -/

/-- C1 (counterexample): the claim asserts that for closes `[10, 12, 11]`
the label column is `[1, 0, undefined]`; the source's
`(df["Close"].shift(-1) > df["Close"]).astype(int)` instead yields a defined
`0` for the final row, because the comparison against the shifted-in NaN is
`False` and `astype(int)` maps it to `0`. -/
theorem c1_label_counterexample :
    target_column [some 10, some 12, some 11] = [1, 0, 0] ∧
    target_column_spec [some 10, some 12, some 11] = [some 1, some 0, none] ∧
    (target_column [some 10, some 12, some 11]).map some ≠
      target_column_spec [some 10, some 12, some 11] := by
  decide

/-- C1 (amended): for every primary series, the label at each row is `1` if
the next row's close exceeds the current row's close and `0` otherwise, and
the final row's label is the defined value `0` (the comparison against the
shifted-in NaN is `False`, cast to `0`); in particular, for closes
`[10, 12, 11]` the label column is `[1, 0, 0]`. -/
theorem c1_label_amended :
    (∀ c : List (Option Rat),
      (target_column c).length = c.length ∧
      (∀ i a b, c.get? i = some (some a) → c.get? (i + 1) = some (some b) →
        (target_column c).get? i = some (if a < b then 1 else 0)) ∧
      (∀ i, i + 1 = c.length → (target_column c).get? i = some 0)) ∧
    target_column [some 10, some 12, some 11] = [1, 0, 0] := by
  constructor
  · intro c
    refine ⟨by simp [target_column], ?_, ?_⟩
    · intro i a b hi hn
      have hlt : i < c.length := by
        by_contra hle
        push_neg at hle
        rw [List.get?_eq_none.mpr hle] at hi
        exact Option.noConfusion hi
      rw [target_column_get?_eq c i hlt, hi, hn]
      rfl
    · intro i hlen
      have hlt : i < c.length := by omega
      have hnone : c.get? (i + 1) = none := List.get?_eq_none.mpr (by omega)
      rw [target_column_get?_eq c i hlt, hnone]
      cases hcd : (c.get? i).getD none <;> rfl
  · decide

/-- C1 (witness): the final row of the three-row example receives the
defined label `0`. -/
theorem c1_label_witness :
    (target_column [some 10, some 12, some 11]).get? 2 = some 0 :=
  (c1_label_amended.1 [some 10, some 12, some 11]).2.2 2 (by decide)

/-- C6: cleaning is idempotent, keeps the column names, keeps the surviving
rows in their original relative order (they form a sublist of the input
rows), and a row survives exactly when it is an input row all of whose cells
are defined. -/
theorem c6_clean_idempotent :
    ∀ df : DataFrame,
      clean_data (clean_data df) = clean_data df ∧
      (clean_data df).colNames = df.colNames ∧
      (clean_data df).rows.Sublist df.rows ∧
      (∀ rw, rw ∈ (clean_data df).rows ↔
        rw ∈ df.rows ∧ rw.2.all Option.isSome = true) := by
  intro df
  refine ⟨?_, rfl, List.filter_sublist _, ?_⟩
  · unfold clean_data
    simp [List.filter_filter]
  · intro rw
    simp [clean_data, List.mem_filter]

/-- C6 (witness): cleaning a concrete two-row table with one NaN row is
idempotent. -/
theorem c6_clean_witness :
    clean_data (clean_data ⟨["a"], [(0, [some 1]), (1, [none])]⟩) =
      clean_data ⟨["a"], [(0, [some 1]), (1, [none])]⟩ :=
  (c6_clean_idempotent ⟨["a"], [(0, [some 1]), (1, [none])]⟩).1

/-- C9: for every fetched frame, every choice of indicator and blockchain
collaborators and every date range, the pipeline entry point fails with
the resolution error on the name `extract_features`, which the
feature-engineering module does not define; no feature array is ever
returned. -/
theorem c9_main_import_error :
    ∀ fetched fBollinger fStochastic fMacd fRsi fSma fEma fMacdHistogram
      fAtr fObv fCci hashRate avgBlockSize networkDifficulty minersRevenue
      mempool,
    main_run fetched fBollinger fStochastic fMacd fRsi fSma fEma
      fMacdHistogram fAtr fObv fCci hashRate avgBlockSize networkDifficulty
      minersRevenue mempool =
      Except.error "cannot import name extract_features" := by
  intro fetched fB fS fM fR fSm fE fMH fA fO fC h a n r mem
  rfl

/-- C3: after the merge step each auxiliary column is left-joined onto the
primary date index: every primary date absent from an auxiliary series (or,
for the mempool column, from the resampled series) yields an undefined cell
in that auxiliary column, and when the auxiliary values are all defined the
merged column holds exactly one defined cell per covered primary date, the
remaining cells being undefined — e.g. a series covering 3 of 100 dates
yields 3 defined and 97 undefined cells before cleaning. -/
theorem c3_left_join_undefined (df : DataFrame) (h a n r : Series)
    (s : List (Nat × Rat)) (hwf : wellFormed df) :
    (∀ rw ∈ (add_blockchain_merged df h a n r s).rows,
       (rw.1 ∉ h.map Prod.fst → rw.2.get? df.colNames.length = some none) ∧
       (rw.1 ∉ a.map Prod.fst →
         rw.2.get? (df.colNames.length + 1) = some none) ∧
       (rw.1 ∉ n.map Prod.fst →
         rw.2.get? (df.colNames.length + 2) = some none) ∧
       (rw.1 ∉ r.map Prod.fst →
         rw.2.get? (df.colNames.length + 3) = some none) ∧
       (rw.1 ∉ (resampleDailyMean s).map Prod.fst →
         rw.2.get? (df.colNames.length + 4) = some none)) ∧
    ((∀ p ∈ h, p.2.isSome = true) →
      (((add_blockchain_merged df h a n r s).rows.map
          (fun rw => (rw.2.get? df.colNames.length).getD none)).countP
          Option.isSome =
        df.rows.countP (fun rw => decide (rw.1 ∈ h.map Prod.fst)) ∧
       ((add_blockchain_merged df h a n r s).rows.map
          (fun rw => (rw.2.get? df.colNames.length).getD none)).countP
          (fun o => !o.isSome) =
        df.rows.length -
          df.rows.countP (fun rw => decide (rw.1 ∈ h.map Prod.fst)) ∧
       (add_blockchain_merged df h a n r s).rows.length = df.rows.length)) := by
  have hcol : (add_blockchain_merged df h a n r s).rows.map
      (fun rw => (rw.2.get? df.colNames.length).getD none) =
      df.rows.map (fun rw => (h.lookup rw.1).getD none) := by
    rw [add_blockchain_merged_eq]
    simp only [List.map_map]
    apply List.map_congr_left
    intro rw hrw
    have hw : rw.2.length = df.colNames.length := hwf rw hrw
    dsimp only [Function.comp]
    rw [get?_append_at rw.2 _ df.colNames.length 0 (by omega)]
    rfl
  constructor
  · intro rw hrw
    rw [add_blockchain_merged_eq] at hrw
    simp only [List.mem_map] at hrw
    obtain ⟨orig, ho, rfl⟩ := hrw
    have hw : orig.2.length = df.colNames.length := hwf orig ho
    refine ⟨?_, ?_, ?_, ?_, ?_⟩ <;> intro hab
    · rw [get?_append_at orig.2 _ df.colNames.length 0 (by omega)]
      have hl := (lookup_eq_none_iff h orig.1).mpr hab
      simp [hl]
    · rw [get?_append_at orig.2 _ (df.colNames.length + 1) 1 (by omega)]
      have hl := (lookup_eq_none_iff a orig.1).mpr hab
      simp [hl]
    · rw [get?_append_at orig.2 _ (df.colNames.length + 2) 2 (by omega)]
      have hl := (lookup_eq_none_iff n orig.1).mpr hab
      simp [hl]
    · rw [get?_append_at orig.2 _ (df.colNames.length + 3) 3 (by omega)]
      have hl := (lookup_eq_none_iff r orig.1).mpr hab
      simp [hl]
    · rw [get?_append_at orig.2 _ (df.colNames.length + 4) 4 (by omega)]
      have hl := (lookup_eq_none_iff (resampleDailyMean s) orig.1).mpr hab
      simp [hl]
  · intro hdef
    have hpt : ∀ rw ∈ df.rows,
        Option.isSome ((h.lookup rw.1).getD none) =
          decide (rw.1 ∈ h.map Prod.fst) := by
      intro rw _
      cases hl : h.lookup rw.1 with
      | none =>
        have := (lookup_eq_none_iff h rw.1).mp hl
        simp [this]
      | some v =>
        have hmem := lookup_mem_of_eq_some h rw.1 v hl
        have hv : v.isSome = true := hdef (rw.1, v) hmem
        have hkey : rw.1 ∈ h.map Prod.fst :=
          List.mem_map.mpr ⟨(rw.1, v), hmem, rfl⟩
        simp [hv, hkey]
    have hcount : (df.rows.map (fun rw => (h.lookup rw.1).getD none)).countP
        Option.isSome =
        df.rows.countP (fun rw => decide (rw.1 ∈ h.map Prod.fst)) := by
      rw [List.countP_map]
      apply List.countP_congr
      intro rw hrw
      simp [Function.comp, hpt rw hrw]
    refine ⟨by rw [hcol, hcount], ?_, ?_⟩
    · rw [hcol,
        countP_not_eq_sub (df.rows.map (fun rw => (h.lookup rw.1).getD none))
          Option.isSome,
        List.length_map, hcount]
    · rw [add_blockchain_merged_eq]
      simp

/-- C3 (witness): an auxiliary series covering 3 of the 100 primary dates
yields exactly 3 defined and 97 undefined cells in the merged column. -/
theorem c3_left_join_witness :
    wellFormed dfHundred ∧
    (((add_blockchain_merged dfHundred hashThree [] [] [] []).rows.map
        (fun rw => (rw.2.get? dfHundred.colNames.length).getD none)).countP
        Option.isSome = 3 ∧
     ((add_blockchain_merged dfHundred hashThree [] [] [] []).rows.map
        (fun rw => (rw.2.get? dfHundred.colNames.length).getD none)).countP
        (fun o => !o.isSome) = 97) := by
  refine ⟨by unfold wellFormed; decide, ?_, ?_⟩
  · have hc := ((c3_left_join_undefined dfHundred hashThree [] [] [] []
      (by unfold wellFormed; decide)).2 (by decide)).1
    rw [hc]
    decide
  · have hc := ((c3_left_join_undefined dfHundred hashThree [] [] [] []
      (by unfold wellFormed; decide)).2 (by decide)).2.1
    rw [hc]
    decide

theorem foldl_min_le_init (l : List Nat) (a : Nat) : l.foldl Nat.min a ≤ a := by
  induction l generalizing a with
  | nil => exact Nat.le_refl a
  | cons x xs ih => exact le_trans (ih (Nat.min a x)) (Nat.min_le_left a x)

theorem foldl_min_le_mem (l : List Nat) (x : Nat) :
    ∀ a, x ∈ l → l.foldl Nat.min a ≤ x := by
  induction l with
  | nil => intro a hx; cases hx
  | cons y ys ih =>
    intro a hx
    rcases List.mem_cons.mp hx with rfl | hmem
    · exact le_trans (foldl_min_le_init ys _) (Nat.min_le_right a x)
    · exact ih _ hmem

theorem le_foldl_min (l : List Nat) (d : Nat) :
    ∀ a, d ≤ a → (∀ x ∈ l, d ≤ x) → d ≤ l.foldl Nat.min a := by
  induction l with
  | nil => intro a ha _; exact ha
  | cons y ys ih =>
    intro a ha hall
    exact ih _ (Nat.le_min.mpr ⟨ha, hall y (List.mem_cons_self y ys)⟩)
      (fun x hx => hall x (List.mem_cons_of_mem _ hx))

theorem init_le_foldl_max (l : List Nat) (a : Nat) : a ≤ l.foldl Nat.max a := by
  induction l generalizing a with
  | nil => exact Nat.le_refl a
  | cons x xs ih => exact le_trans (Nat.le_max_left a x) (ih (Nat.max a x))

theorem mem_le_foldl_max (l : List Nat) (x : Nat) :
    ∀ a, x ∈ l → x ≤ l.foldl Nat.max a := by
  induction l with
  | nil => intro a hx; cases hx
  | cons y ys ih =>
    intro a hx
    rcases List.mem_cons.mp hx with rfl | hmem
    · exact le_trans (Nat.le_max_right a x) (init_le_foldl_max ys _)
    · exact ih _ hmem

theorem foldl_max_le (l : List Nat) (d : Nat) :
    ∀ a, a ≤ d → (∀ x ∈ l, x ≤ d) → l.foldl Nat.max a ≤ d := by
  induction l with
  | nil => intro a ha _; exact ha
  | cons y ys ih =>
    intro a ha hall
    exact ih _ (Nat.max_le.mpr ⟨ha, hall y (List.mem_cons_self y ys)⟩)
      (fun x hx => hall x (List.mem_cons_of_mem _ hx))

theorem daysMin_eq (p : Nat × Rat) (rest : List (Nat × Rat)) (d : Nat)
    (hlo : ∀ q ∈ p :: rest, d ≤ dayOf q.1)
    (hw : ∃ q ∈ p :: rest, dayOf q.1 = d) :
    daysMin (p :: rest) = d := by
  unfold daysMin
  apply Nat.le_antisymm
  · obtain ⟨q, hq, hdq⟩ := hw
    have hmem : dayOf q.1 ∈ (p :: rest).map (fun q => dayOf q.1) :=
      List.mem_map.mpr ⟨q, hq, rfl⟩
    exact hdq ▸ foldl_min_le_mem _ _ _ hmem
  · exact le_foldl_min _ _ _ (hlo p (List.mem_cons_self p rest))
      (fun x hx => by
        obtain ⟨q, hq, rfl⟩ := List.mem_map.mp hx
        exact hlo q hq)

theorem daysMax_eq (p : Nat × Rat) (rest : List (Nat × Rat)) (e : Nat)
    (hhi : ∀ q ∈ p :: rest, dayOf q.1 ≤ e)
    (hw : ∃ q ∈ p :: rest, dayOf q.1 = e) :
    daysMax (p :: rest) = e := by
  unfold daysMax
  apply Nat.le_antisymm
  · exact foldl_max_le _ _ _ (hhi p (List.mem_cons_self p rest))
      (fun x hx => by
        obtain ⟨q, hq, rfl⟩ := List.mem_map.mp hx
        exact hhi q hq)
  · obtain ⟨q, hq, hdq⟩ := hw
    have hmem : dayOf q.1 ∈ (p :: rest).map (fun q => dayOf q.1) :=
      List.mem_map.mpr ⟨q, hq, rfl⟩
    exact hdq ▸ mem_le_foldl_max _ _ _ hmem

/-- C8: a sub-daily mempool series spanning three calendar days is resampled
to exactly three daily rows, one per day, each holding the mean of that day's
samples, and the merge step joins the resampled series — the mempool cell of
every merged row is drawn from the resampled series, not the raw one. -/
theorem c8_mempool_resample (s : List (Nat × Rat)) (d : Nat) (hne : s ≠ [])
    (hlo : ∀ q ∈ s, d ≤ dayOf q.1) (hhi : ∀ q ∈ s, dayOf q.1 ≤ d + 2)
    (hfirst : ∃ q ∈ s, dayOf q.1 = d) (hlast : ∃ q ∈ s, dayOf q.1 = d + 2) :
    (resampleDailyMean s).length = 3 ∧
    (resampleDailyMean s).map Prod.fst = [d, d + 1, d + 2] ∧
    (∀ k, k < 3 → (resampleDailyMean s).get? k =
      some (d + k, meanOf (s.filterMap
        (fun q => if dayOf q.1 = d + k then some q.2 else none)))) ∧
    (∀ (df : DataFrame) (h a n r : Series), wellFormed df →
      ∀ rw ∈ (add_blockchain_merged df h a n r s).rows,
        rw.2.get? (df.colNames.length + 4) =
          some (((resampleDailyMean s).lookup rw.1).getD none)) := by
  obtain ⟨p, rest, rfl⟩ := List.exists_cons_of_ne_nil hne
  have hmin : daysMin (p :: rest) = d := daysMin_eq p rest d hlo hfirst
  have hmax : daysMax (p :: rest) = d + 2 := daysMax_eq p rest (d + 2) hhi hlast
  have hres : resampleDailyMean (p :: rest) =
      (List.range 3).map (fun k => (d + k, meanOf ((p :: rest).filterMap
        (fun q => if dayOf q.1 = d + k then some q.2 else none)))) := by
    conv_lhs => rw [resampleDailyMean]
    rw [hmin, hmax]
    have h3 : d + 2 + 1 - d = 3 := by omega
    rw [h3]
  refine ⟨?_, ?_, ?_, ?_⟩
  · rw [hres]
    simp
  · rw [hres]
    have h3 : List.range 3 = [0, 1, 2] := rfl
    rw [List.map_map, h3]
    simp
  · intro k hk
    rw [hres, List.get?_map, List.get?_range hk]
    rfl
  · intro df h a n r hwf rw hrw
    rw [add_blockchain_merged_eq] at hrw
    simp only [List.mem_map] at hrw
    obtain ⟨orig, ho, rfl⟩ := hrw
    have hw : orig.2.length = df.colNames.length := hwf orig ho
    rw [get?_append_at orig.2 _ (df.colNames.length + 4) 4 (by omega)]
    rfl

/-- C8 (witness): the concrete hourly series spanning three days resamples
to exactly three daily rows with day keys 0, 1, 2. -/
theorem c8_mempool_witness :
    (resampleDailyMean mempoolSamples).length = 3 ∧
    (resampleDailyMean mempoolSamples).map Prod.fst = [0, 1, 2] :=
  have hc := c8_mempool_resample mempoolSamples 0 (by decide) (by decide)
    (by decide) (by decide) (by decide)
  ⟨hc.1, by simpa using hc.2.1⟩

/-- C5: whenever the configured window length is at least the row count,
feature extraction fails with the configuration error raised by sequence
creation, for every model, training function and prediction function — in
particular no training pass is executed, since the result does not depend on
the training function. -/
theorem c5_window_misconfig {μ : Type} :
    ∀ (df : DataFrame) (L : Nat) (model0 : μ) train predictMean,
    df.rows.length ≤ L →
    extract_lstm_features df L model0 train predictMean =
      Except.error "sequence length must be smaller than the number of rows" := by
  intro df L m0 tr pm h
  have hcs : create_sequences df L =
      Except.error "sequence length must be smaller than the number of rows" := by
    unfold create_sequences
    rw [if_neg (by omega)]
  unfold extract_lstm_features
  rw [hcs]

/-- C5 (witness): a two-row table with window length five fails with the
configuration error. -/
theorem c5_window_misconfig_witness :
    extract_lstm_features (⟨[], [(0, []), (1, [])]⟩ : DataFrame) 5 ()
      (fun m _ => m) (fun _ _ => []) =
      Except.error "sequence length must be smaller than the number of rows" :=
  c5_window_misconfig _ 5 () (fun m _ => m) (fun _ _ => []) (by decide)

theorem windowsOf_length (df : DataFrame) (L : Nat) :
    (windowsOf df L).length = df.rows.length - L := by
  unfold windowsOf
  simp

theorem featureIndexSlice_length (df : DataFrame) (L : Nat) (h1 : 1 ≤ L)
    (h2 : L < df.rows.length) :
    (featureIndexSlice df L).length = df.rows.length - L := by
  unfold featureIndexSlice dfIndex
  rw [List.length_dropLast, List.length_drop, List.length_map]
  omega

theorem featureIndexSlice_get? (df : DataFrame) (L : Nat) (h1 : 1 ≤ L)
    (h2 : L < df.rows.length) (j : Nat) (hj : j < df.rows.length - L) :
    (featureIndexSlice df L).get? j = (dfIndex df).get? (j + (L - 1)) := by
  have hidx : (dfIndex df).length = df.rows.length := List.length_map _ _
  unfold featureIndexSlice
  rw [List.get?_eq_getElem?, List.getElem?_dropLast,
    if_pos (by rw [List.length_drop]; omega), List.getElem?_drop,
    List.get?_eq_getElem?, Nat.add_comm (L - 1) j]

theorem extract_cell_lookup (df : DataFrame) (L : Nat) (scalars : List Rat)
    (h1 : 1 ≤ L) (h2 : L < df.rows.length) (hnd : (dfIndex df).Nodup)
    (hs : scalars.length = df.rows.length - L) :
    ∀ (r t : Nat), (dfIndex df).get? r = some t →
      ((featureIndexSlice df L).zip scalars).lookup t =
        if L - 1 ≤ r ∧ r < df.rows.length - 1 then scalars.get? (r - (L - 1))
        else none := by
  intro r t ht
  have hidx : (dfIndex df).length = df.rows.length := List.length_map _ _
  have hr : r < df.rows.length := by
    obtain ⟨hh, _⟩ := List.get?_eq_some.mp ht
    omega
  have hslen : (featureIndexSlice df L).length = df.rows.length - L :=
    featureIndexSlice_length df L h1 h2
  have hsub : (featureIndexSlice df L).Sublist (dfIndex df) :=
    (List.dropLast_sublist ((dfIndex df).drop (L - 1))).trans
      (List.drop_sublist (L - 1) (dfIndex df))
  have hsnd : (featureIndexSlice df L).Nodup := hsub.nodup hnd
  by_cases hcond : L - 1 ≤ r ∧ r < df.rows.length - 1
  · rw [if_pos hcond]
    have hj : r - (L - 1) < df.rows.length - L := by omega
    have hget : (featureIndexSlice df L).get? (r - (L - 1)) = some t := by
      rw [featureIndexSlice_get? df L h1 h2 _ hj]
      have harith : r - (L - 1) + (L - 1) = r := by omega
      rw [harith]
      exact ht
    exact lookup_zip_eq_get? (featureIndexSlice df L) scalars hsnd
      (by omega) (r - (L - 1)) t hget
  · rw [if_neg hcond]
    apply lookup_zip_eq_none _ _ (by omega)
    intro htmem
    obtain ⟨⟨j, hjlt⟩, hjt⟩ := List.mem_iff_get.mp htmem
    have hj : j < df.rows.length - L := by omega
    have hget : (featureIndexSlice df L).get? j = some t := by
      rw [List.get?_eq_get hjlt, hjt]
    rw [featureIndexSlice_get? df L h1 h2 _ hj] at hget
    have hreq : j + (L - 1) = r := by
      have hjr : j + (L - 1) < (dfIndex df).length := by omega
      apply List.getElem?_inj hjr hnd
      rw [← List.get?_eq_getElem?, ← List.get?_eq_getElem?, hget, ht]
    omega

theorem getColumn_append_col (df : DataFrame) (nm : String)
    (f : Nat × List (Option Rat) → Option Rat)
    (hwf : wellFormed df) (hn : nm ∉ df.colNames) :
    getColumn ⟨df.colNames ++ [nm],
      df.rows.map (fun rw => (rw.1, rw.2 ++ [f rw]))⟩ nm = df.rows.map f := by
  unfold getColumn
  dsimp only
  rw [if_pos (by simp)]
  have hidx : (df.colNames ++ [nm]).indexOf nm = df.colNames.length := by
    rw [List.indexOf_append_of_not_mem hn]
    simp
  simp only [List.map_map]
  apply List.map_congr_left
  intro rw hrw
  have hw : rw.2.length = df.colNames.length := hwf rw hrw
  dsimp only [Function.comp]
  rw [hidx, get?_append_at rw.2 _ df.colNames.length 0 (by omega)]
  rfl

theorem extract_lstm_features_ok {μ : Type} (df : DataFrame) (L : Nat)
    (model0 : μ) (train : μ → List Window → μ)
    (predictMean : μ → List Window → List Rat)
    (h1 : 1 ≤ L) (h2 : L < df.rows.length)
    (hp : (predictMean (train model0 (windowsOf df L))
      (windowsOf df L)).length = df.rows.length - L) :
    extract_lstm_features df L model0 train predictMean = Except.ok
      ⟨df.colNames ++ ["lstm_feature"],
       df.rows.map (fun rw => (rw.1, rw.2 ++
         [((featureIndexSlice df L).zip
            (predictMean (train model0 (windowsOf df L))
              (windowsOf df L))).lookup rw.1]))⟩ := by
  have hcs : create_sequences df L = Except.ok (windowsOf df L) := by
    unfold create_sequences
    rw [if_pos h2]
  unfold extract_lstm_features
  rw [hcs]
  dsimp only
  rw [if_pos (by rw [hp, featureIndexSlice_length df L h1 h2])]

theorem extract_lstm_features_mismatch {μ : Type} (df : DataFrame) (L : Nat)
    (model0 : μ) (train : μ → List Window → μ)
    (predictMean : μ → List Window → List Rat)
    (h1 : 1 ≤ L) (h2 : L < df.rows.length)
    (hp : (predictMean (train model0 (windowsOf df L))
      (windowsOf df L)).length ≠ df.rows.length - L) :
    extract_lstm_features df L model0 train predictMean =
      Except.error "Length mismatch between values and index" := by
  have hcs : create_sequences df L = Except.ok (windowsOf df L) := by
    unfold create_sequences
    rw [if_pos h2]
  unfold extract_lstm_features
  rw [hcs]
  dsimp only
  rw [if_neg (by
    intro heq
    rw [featureIndexSlice_length df L h1 h2] at heq
    exact hp heq)]

/-- C2: for every consolidated table of `N` rows and window length `L < N`,
feature extraction produces exactly `N - L` per-window scalars (one per
window, windows covering rows `[i, i+L)` in order), the scalar for window
`i` is attached to the table at row `i + L - 1` — the window's last row, the
index being preserved — so windows map onto table rows `L-1` through `N-2`,
the summary feature at table row `r` in that span corresponds to window
`r - (L-1)`, and the first `L-1` rows lack the feature. -/
theorem c2_window_reindex {μ : Type} (df : DataFrame) (L : Nat) (model0 : μ)
    (train : μ → List Window → μ) (predictMean : μ → List Window → List Rat)
    (h1 : 1 ≤ L) (h2 : L < df.rows.length) (hwf : wellFormed df)
    (hnd : (dfIndex df).Nodup) (hfresh : "lstm_feature" ∉ df.colNames)
    (hp : ∀ (m : μ) (X : List Window), (predictMean m X).length = X.length) :
    (windowsOf df L).length = df.rows.length - L ∧
    (∀ i, i < df.rows.length - L → (windowsOf df L).get? i =
      some (((df.rows.drop i).take L).map Prod.snd)) ∧
    ∃ out, extract_lstm_features df L model0 train predictMean =
        Except.ok out ∧
      (predictMean (train model0 (windowsOf df L)) (windowsOf df L)).length =
        df.rows.length - L ∧
      dfIndex out = dfIndex df ∧
      (getColumn out "lstm_feature").length = df.rows.length ∧
      (∀ i, i < df.rows.length - L →
        (getColumn out "lstm_feature").get? (i + (L - 1)) =
          some ((predictMean (train model0 (windowsOf df L))
            (windowsOf df L)).get? i)) ∧
      (∀ r, L - 1 ≤ r → r < df.rows.length - 1 →
        (getColumn out "lstm_feature").get? r =
          some ((predictMean (train model0 (windowsOf df L))
            (windowsOf df L)).get? (r - (L - 1)))) ∧
      (∀ r, r < L - 1 →
        (getColumn out "lstm_feature").get? r = some none) := by
  have hwlen := windowsOf_length df L
  have hplen : (predictMean (train model0 (windowsOf df L))
      (windowsOf df L)).length = df.rows.length - L := by
    rw [hp]
    exact hwlen
  have hok := extract_lstm_features_ok df L model0 train predictMean h1 h2
    hplen
  have hcolOut : getColumn
      (⟨df.colNames ++ ["lstm_feature"],
        df.rows.map (fun rw => (rw.1, rw.2 ++
          [((featureIndexSlice df L).zip
             (predictMean (train model0 (windowsOf df L))
               (windowsOf df L))).lookup rw.1]))⟩ : DataFrame)
      "lstm_feature" =
      df.rows.map (fun rw => ((featureIndexSlice df L).zip
        (predictMean (train model0 (windowsOf df L))
          (windowsOf df L))).lookup rw.1) :=
    getColumn_append_col df "lstm_feature" _ hwf hfresh
  have hgen : ∀ r, r < df.rows.length →
      (getColumn (⟨df.colNames ++ ["lstm_feature"],
        df.rows.map (fun rw => (rw.1, rw.2 ++
          [((featureIndexSlice df L).zip
             (predictMean (train model0 (windowsOf df L))
               (windowsOf df L))).lookup rw.1]))⟩ : DataFrame)
        "lstm_feature").get? r =
        some (if L - 1 ≤ r ∧ r < df.rows.length - 1 then
          (predictMean (train model0 (windowsOf df L))
            (windowsOf df L)).get? (r - (L - 1)) else none) := by
    intro r hr
    rw [hcolOut, List.get?_map]
    cases hrow : df.rows.get? r with
    | none =>
      rw [List.get?_eq_none] at hrow
      omega
    | some rowr =>
      have hti : (dfIndex df).get? r = some rowr.1 := by
        unfold dfIndex
        rw [List.get?_map, hrow]
        rfl
      rw [Option.map_some']
      rw [extract_cell_lookup df L _ h1 h2 hnd hplen r rowr.1 hti]
  refine ⟨hwlen, ?_, ?_⟩
  · intro i hi
    unfold windowsOf
    rw [List.get?_map, List.get?_range (by omega)]
    rfl
  · refine ⟨_, hok, hplen, ?_, ?_, ?_, ?_, ?_⟩
    · unfold dfIndex
      simp [List.map_map]
    · rw [hcolOut]
      simp
    · intro i hi
      have hr : i + (L - 1) < df.rows.length := by omega
      rw [hgen (i + (L - 1)) hr]
      rw [if_pos (by omega)]
      have harith : i + (L - 1) - (L - 1) = i := by omega
      rw [harith]
    · intro r hrlo hrhi
      rw [hgen r (by omega), if_pos ⟨hrlo, hrhi⟩]
    · intro r hrlt
      rw [hgen r (by omega), if_neg (by omega)]

/-- C2 (witness): a three-row frame with window length two produces exactly
one window. -/
theorem c2_window_reindex_witness : (windowsOf dfThree 2).length = 1 :=
  (c2_window_reindex dfThree 2 () (fun m _ => m)
    (fun _ X => X.map (fun _ => 0)) (by decide) (by decide)
    (by unfold wellFormed; decide) (by decide) (by decide)
    (fun m X => by simp)).1

/-- C10: whenever sequence creation and prediction yield exactly `N - L`
per-window outputs, `extract_lstm_features` returns the table with the same
`N` rows, every original timestamp and cell unchanged, and exactly one new
column `lstm_feature` whose cell is defined precisely on rows `L-1` through
`N-2` — undefined on the first `L-1` rows and on the last row; when the
per-window output count differs from `N - L`, the reindexing step fails. -/
theorem c10_extract_frame {μ : Type} (df : DataFrame) (L : Nat) (model0 : μ)
    (train : μ → List Window → μ) (predictMean : μ → List Window → List Rat)
    (h1 : 1 ≤ L) (h2 : L < df.rows.length) (hnd : (dfIndex df).Nodup) :
    ((predictMean (train model0 (windowsOf df L)) (windowsOf df L)).length =
        df.rows.length - L →
      ∃ out, extract_lstm_features df L model0 train predictMean =
          Except.ok out ∧
        out.colNames = df.colNames ++ ["lstm_feature"] ∧
        out.rows.length = df.rows.length ∧
        (∀ r rw, df.rows.get? r = some rw →
          out.rows.get? r = some (rw.1, rw.2 ++
            [((featureIndexSlice df L).zip
              (predictMean (train model0 (windowsOf df L))
                (windowsOf df L))).lookup rw.1])) ∧
        (∀ r rw, df.rows.get? r = some rw →
          ((((featureIndexSlice df L).zip
              (predictMean (train model0 (windowsOf df L))
                (windowsOf df L))).lookup rw.1).isSome = true ↔
            (L - 1 ≤ r ∧ r < df.rows.length - 1)))) ∧
    ((predictMean (train model0 (windowsOf df L)) (windowsOf df L)).length ≠
        df.rows.length - L →
      extract_lstm_features df L model0 train predictMean =
        Except.error "Length mismatch between values and index") := by
  constructor
  · intro hplen
    have hok := extract_lstm_features_ok df L model0 train predictMean h1 h2
      hplen
    refine ⟨_, hok, rfl, by simp, ?_, ?_⟩
    · intro r rw hrow
      rw [List.get?_map, hrow]
      rfl
    · intro r rw hrow
      have hr : r < df.rows.length := by
        obtain ⟨hh, _⟩ := List.get?_eq_some.mp hrow
        omega
      have hti : (dfIndex df).get? r = some rw.1 := by
        unfold dfIndex
        rw [List.get?_map, hrow]
        rfl
      rw [extract_cell_lookup df L _ h1 h2 hnd hplen r rw.1 hti]
      by_cases hcond : L - 1 ≤ r ∧ r < df.rows.length - 1
      · rw [if_pos hcond]
        have hin : r - (L - 1) <
            (predictMean (train model0 (windowsOf df L))
              (windowsOf df L)).length := by omega
        rw [List.get?_eq_get hin]
        simp [hcond]
      · rw [if_neg hcond]
        simp
        omega
  · intro hplen
    exact extract_lstm_features_mismatch df L model0 train predictMean h1 h2
      hplen

/-- C10 (witness): on the concrete three-row frame with window length two
and a one-output prediction, extraction succeeds and keeps all three rows. -/
theorem c10_extract_witness :
    ∃ out, extract_lstm_features dfThree 2 () (fun m _ => m)
        (fun _ X => X.map (fun _ => 0)) = Except.ok out ∧
      out.rows.length = 3 := by
  obtain ⟨out, hok, _, hlen, _, _⟩ :=
    (c10_extract_frame dfThree 2 () (fun m _ => m)
      (fun _ X => X.map (fun _ => 0)) (by decide) (by decide)
      (by decide)).1 (by decide)
  exact ⟨out, hok, hlen⟩

theorem setColumn_colNames (df : DataFrame) (n : String)
    (v : List (Option Rat)) :
    (setColumn df n v).colNames =
      if n ∈ df.colNames then df.colNames else df.colNames ++ [n] := by
  by_cases hmem : n ∈ df.colNames <;> simp [setColumn, hmem]

/-- C4 (counterexample): the claim asserts the caller's table is unchanged
after the indicator-augmentation stage; the source's column assignments of
lines 106-117 write onto the passed-in frame, so the caller's one-column
table has sixteen columns after them. -/
theorem c4_builder_mutates_counterexample :
    add_all_technical_indicators_mutated dfClose
      (fun _ => ([none], [none], [none])) (fun _ => ([none], [none]))
      (fun _ => ([none], [none], [none])) (fun _ => [none]) (fun _ => [none])
      (fun _ => [none]) (fun _ => [none]) (fun _ => [none]) (fun _ => [none])
      (fun _ => [none]) ≠ dfClose := by
  decide

/-- C4 (amended): the feature-table builder's indicator-augmentation stage
does mutate the caller's table in place: the fifteen column assignments of
`add_all_technical_indicators` write the indicator columns onto the
passed-in frame (whatever the indicator collaborators return) before the
stage rebinds to the separately constructed cleaned copy it returns, so the
caller's table is changed after the call. -/
theorem c4_builder_mutates (df : DataFrame)
    (fBollinger : List (Option Rat) →
      List (Option Rat) × List (Option Rat) × List (Option Rat))
    (fStochastic : DataFrame → List (Option Rat) × List (Option Rat))
    (fMacd : List (Option Rat) →
      List (Option Rat) × List (Option Rat) × List (Option Rat))
    (fRsi fSma fEma fMacdHistogram : List (Option Rat) → List (Option Rat))
    (fAtr fObv fCci : DataFrame → List (Option Rat))
    (hfresh : ∀ n ∈ taNewColNames, n ∉ df.colNames) :
    (add_all_technical_indicators_mutated df fBollinger fStochastic fMacd
        fRsi fSma fEma fMacdHistogram fAtr fObv fCci).colNames =
      df.colNames ++ taNewColNames ∧
    add_all_technical_indicators_mutated df fBollinger fStochastic fMacd
        fRsi fSma fEma fMacdHistogram fAtr fObv fCci ≠ df := by
  have h01 : "upper_bb" ∉ df.colNames := hfresh _ (by simp [taNewColNames])
  have h02 : "middle_bb" ∉ df.colNames := hfresh _ (by simp [taNewColNames])
  have h03 : "lower_bb" ∉ df.colNames := hfresh _ (by simp [taNewColNames])
  have h04 : "slowk" ∉ df.colNames := hfresh _ (by simp [taNewColNames])
  have h05 : "slowd" ∉ df.colNames := hfresh _ (by simp [taNewColNames])
  have h06 : "macd" ∉ df.colNames := hfresh _ (by simp [taNewColNames])
  have h07 : "macdsignal" ∉ df.colNames := hfresh _ (by simp [taNewColNames])
  have h08 : "macdhist" ∉ df.colNames := hfresh _ (by simp [taNewColNames])
  have h09 : "rsi" ∉ df.colNames := hfresh _ (by simp [taNewColNames])
  have h10 : "sma" ∉ df.colNames := hfresh _ (by simp [taNewColNames])
  have h11 : "ema" ∉ df.colNames := hfresh _ (by simp [taNewColNames])
  have h12 : "atr" ∉ df.colNames := hfresh _ (by simp [taNewColNames])
  have h13 : "macd_hist" ∉ df.colNames := hfresh _ (by simp [taNewColNames])
  have h14 : "obv" ∉ df.colNames := hfresh _ (by simp [taNewColNames])
  have h15 : "cci" ∉ df.colNames := hfresh _ (by simp [taNewColNames])
  have hcols : (add_all_technical_indicators_mutated df fBollinger
      fStochastic fMacd fRsi fSma fEma fMacdHistogram fAtr fObv
      fCci).colNames = df.colNames ++ taNewColNames := by
    simp only [add_all_technical_indicators_mutated, setColumn_colNames]
    simp [taNewColNames, h01, h02, h03, h04, h05, h06, h07, h08, h09, h10,
      h11, h12, h13, h14, h15, List.append_assoc]
  refine ⟨hcols, ?_⟩
  intro heq
  rw [heq] at hcols
  have hlen := congrArg List.length hcols
  simp [taNewColNames] at hlen

/-- C4 (witness): on the concrete one-column Close table, with every
indicator collaborator returning a single undefined cell, the caller's
table differs from its original value after the assignments. -/
theorem c4_builder_mutates_witness :
    (∀ n ∈ taNewColNames, n ∉ dfClose.colNames) ∧
    add_all_technical_indicators_mutated dfClose
      (fun _ => ([none], [none], [none])) (fun _ => ([none], [none]))
      (fun _ => ([none], [none], [none])) (fun _ => [none]) (fun _ => [none])
      (fun _ => [none]) (fun _ => [none]) (fun _ => [none]) (fun _ => [none])
      (fun _ => [none]) ≠ dfClose :=
  ⟨by decide,
   (c4_builder_mutates dfClose
      (fun _ => ([none], [none], [none])) (fun _ => ([none], [none]))
      (fun _ => ([none], [none], [none])) (fun _ => [none]) (fun _ => [none])
      (fun _ => [none]) (fun _ => [none]) (fun _ => [none]) (fun _ => [none])
      (fun _ => [none]) (by decide)).2⟩

theorem mergeAll_cons (df : DataFrame) (ns : String × Series)
    (rest : List (String × Series)) :
    mergeAll df (ns :: rest) = mergeAll (merge_left df ns.1 ns.2) rest := rfl

theorem mergeAll_normal (auxs : List (String × Series)) :
    ∀ df : DataFrame,
      (mergeAll df auxs).colNames = df.colNames ++ auxs.map Prod.fst ∧
      (mergeAll df auxs).rows = df.rows.map (fun rw => (rw.1, rw.2 ++
        auxs.map (fun ns => (ns.2.lookup rw.1).getD none))) := by
  induction auxs with
  | nil =>
    intro df
    constructor
    · simp [mergeAll]
    · simp [mergeAll]
  | cons ns rest ih =>
    intro df
    rw [mergeAll_cons]
    obtain ⟨hc, hr⟩ := ih (merge_left df ns.1 ns.2)
    constructor
    · rw [hc]
      simp [merge_left, List.append_assoc]
    · rw [hr]
      simp only [merge_left, List.map_map]
      apply List.map_congr_left
      intro rw _
      simp [Function.comp, List.append_assoc]

theorem get?_at_indexOf_fst {β : Type} :
    ∀ (auxs : List (String × β)) (nm : String) (sv : β),
    (auxs.map Prod.fst).Nodup → (nm, sv) ∈ auxs →
    auxs.get? ((auxs.map Prod.fst).indexOf nm) = some (nm, sv) := by
  intro auxs
  induction auxs with
  | nil => intro nm sv _ hm; cases hm
  | cons ms rest ih =>
    intro nm sv hnd hm
    obtain ⟨m, t⟩ := ms
    rw [List.map_cons, List.nodup_cons] at hnd
    by_cases hmn : m = nm
    · subst hmn
      rcases List.mem_cons.mp hm with heq | hmem
      · have hsv : sv = t := congrArg Prod.snd heq
        subst hsv
        simp [List.indexOf_cons_self]
      · exact absurd (List.mem_map.mpr ⟨(m, sv), hmem, rfl⟩) hnd.1
    · have hm2 : (nm, sv) ∈ rest := by
        rcases List.mem_cons.mp hm with heq | hmem
        · have hnmm : nm = m := congrArg Prod.fst heq
          exact absurd hnmm.symm hmn
        · exact hmem
      simp only [List.map_cons]
      rw [List.indexOf_cons_ne _ hmn]
      simpa using ih nm sv hnd.2 hm2

theorem getColumn_mergeAll_aux (df : DataFrame)
    (auxs : List (String × Series)) (nm : String) (sv : Series)
    (hwf : wellFormed df) (hmem : (nm, sv) ∈ auxs)
    (hnd : (auxs.map Prod.fst).Nodup)
    (hfresh : ∀ ns ∈ auxs, ns.1 ∉ df.colNames) :
    getColumn (mergeAll df auxs) nm =
      df.rows.map (fun rw => (sv.lookup rw.1).getD none) := by
  obtain ⟨hc, hr⟩ := mergeAll_normal auxs df
  have hnmem : nm ∈ auxs.map Prod.fst :=
    List.mem_map.mpr ⟨(nm, sv), hmem, rfl⟩
  have hnm2 : nm ∉ df.colNames := hfresh (nm, sv) hmem
  unfold getColumn
  rw [hc, hr]
  rw [if_pos (List.mem_append.mpr (Or.inr hnmem))]
  rw [List.indexOf_append_of_not_mem hnm2]
  rw [List.map_map]
  apply List.map_congr_left
  intro rw hrw
  have hwl : rw.2.length = df.colNames.length := hwf rw hrw
  dsimp only [Function.comp]
  rw [get?_append_at rw.2 _
    (df.colNames.length + (auxs.map Prod.fst).indexOf nm)
    ((auxs.map Prod.fst).indexOf nm) (by omega)]
  rw [List.get?_map, get?_at_indexOf_fst auxs nm sv hnd hmem]
  rfl

theorem getColumn_mergeAll_orig (df : DataFrame)
    (auxs : List (String × Series)) (nm : String)
    (hwf : wellFormed df) (hmem : nm ∈ df.colNames) :
    getColumn (mergeAll df auxs) nm = getColumn df nm := by
  obtain ⟨hc, hr⟩ := mergeAll_normal auxs df
  unfold getColumn
  rw [hc, hr]
  rw [if_pos (List.mem_append.mpr (Or.inl hmem)), if_pos hmem]
  rw [List.indexOf_append_of_mem hmem]
  rw [List.map_map]
  apply List.map_congr_left
  intro rw hrw
  have hwl : rw.2.length = df.colNames.length := hwf rw hrw
  dsimp only [Function.comp]
  have hidx : df.colNames.indexOf nm < rw.2.length := by
    rw [hwl]
    exact List.indexOf_lt_length.mpr hmem
  rw [List.get?_append hidx]

/-- C7 (counterexample): the claim asserts the final merged table is the
same for every merge order; permuting two auxiliary series permutes the
column order of the result, so the two tables are not equal. -/
theorem c7_merge_order_counterexample :
    ([("A", [(0, some 1)]), ("B", [(0, some 2)])] :
        List (String × Series)).Perm
      [("B", [(0, some 2)]), ("A", [(0, some 1)])] ∧
    mergeAll dfEmptyRow [("A", [(0, some 1)]), ("B", [(0, some 2)])] ≠
      mergeAll dfEmptyRow [("B", [(0, some 2)]), ("A", [(0, some 1)])] := by
  constructor
  · exact List.Perm.swap _ _ _
  · decide

/-- C7 (amended): merging the auxiliary series sequentially onto the primary
date index is order-independent up to column order: for every permutation of
the auxiliary series the merged tables have the same date index, every
auxiliary column holds the same values (each primary date paired with the
looked-up auxiliary value), and every original primary column is unchanged;
only the left-to-right order of the appended auxiliary columns follows the
merge order. -/
theorem c7_merge_order (df : DataFrame) (auxs1 auxs2 : List (String × Series))
    (hperm : auxs1.Perm auxs2) (hnd : (auxs1.map Prod.fst).Nodup)
    (hfresh : ∀ ns ∈ auxs1, ns.1 ∉ df.colNames) (hwf : wellFormed df) :
    dfIndex (mergeAll df auxs1) = dfIndex (mergeAll df auxs2) ∧
    (∀ ns ∈ auxs1, getColumn (mergeAll df auxs1) ns.1 =
      getColumn (mergeAll df auxs2) ns.1) ∧
    (∀ nm ∈ df.colNames, getColumn (mergeAll df auxs1) nm =
      getColumn (mergeAll df auxs2) nm) := by
  have hnd2 : (auxs2.map Prod.fst).Nodup := ((hperm.map Prod.fst).nodup_iff).mp hnd
  have hfresh2 : ∀ ns ∈ auxs2, ns.1 ∉ df.colNames :=
    fun ns hns => hfresh ns (hperm.mem_iff.mpr hns)
  refine ⟨?_, ?_, ?_⟩
  · unfold dfIndex
    rw [(mergeAll_normal auxs1 df).2, (mergeAll_normal auxs2 df).2]
    simp [List.map_map, Function.comp]
  · intro ns hns
    obtain ⟨nm, sv⟩ := ns
    rw [getColumn_mergeAll_aux df auxs1 nm sv hwf hns hnd hfresh,
      getColumn_mergeAll_aux df auxs2 nm sv hwf (hperm.mem_iff.mp hns) hnd2
        hfresh2]
  · intro nm hnm
    rw [getColumn_mergeAll_orig df auxs1 nm hwf hnm,
      getColumn_mergeAll_orig df auxs2 nm hwf hnm]

/-- C7 (witness): on concrete two-series merges in both orders, the date
index of the merged tables agrees. -/
theorem c7_merge_order_witness :
    dfIndex (mergeAll dfEmptyRow
        [("A", [(0, some 1)]), ("B", [(0, some 2)])]) =
      dfIndex (mergeAll dfEmptyRow
        [("B", [(0, some 2)]), ("A", [(0, some 1)])]) :=
  (c7_merge_order dfEmptyRow _ _ (List.Perm.swap _ _ _) (by decide)
    (by decide) (by unfold wellFormed; decide)).1

end QNet
